import Mathlib

/-!
Verification of the period-resolution and forecast-orchestration core of a
Rasa custom-action dashboard example (`actions/actions.py`).

The embedding models, faithfully to the Python source:
* `slice_series`   — observation filtering, monthly resampling and averaging;
* `parse_last_period` — the "last N unit(s)" phrase parser;
* `filter_period`  — the period-resolution rule cascade (a raised Python
  exception is modelled as `Except.error`);
* `ensure_positive_int` — horizon coercion;
* `forecast_dispatch` — the backend-selection logic of `ActionForecastKPI.run`.

String primitives (lowercasing, stripping, splitting, int parsing) are
implemented here by structural recursion over character lists so that every
definition evaluates inside the kernel; each models the corresponding
Python builtin.  External-library behaviour (pandas) is modelled
explicitly: `pdToDatetime` models `pandas.to_datetime` on the string
formats relevant here, and the monthly `resample("MS").mean()` is modelled
by enumerating every month between the first and last observed month
(pandas emits a row for every month in that range, with NaN — here
`Option.none` — for empty bins).
-/

/-- A calendar month: the `ds` column of the monthly frame (month-start
timestamps, so only year and month carry information). -/
structure Month where
  year : Int
  month : Nat
deriving DecidableEq, Repr

/-- A calendar date as carried by an observation row (`date` column). -/
structure PyDate where
  year : Int
  month : Nat
  day : Nat
deriving DecidableEq, Repr

/-- A row of the loaded KPI-history frame.  `load_data` lowercases the
`kpi` and `segment` columns on load; matching below lowercases both sides,
which models the composition of `load_data` and `slice_series`. -/
structure Obs where
  date : PyDate
  kpi : String
  segment : String
  value : ℚ
deriving DecidableEq, Repr

/-- A row of the monthly series frame (`ds`/`y` columns).  `y` is `none`
when the pandas resampler produced a NaN bin (a month with no data). -/
structure MPoint where
  ds : Month
  y : Option ℚ
deriving DecidableEq, Repr

/-- Linear month index: `year*12 + month`.  Chronological order on valid
month-start timestamps coincides with the order of this index. -/
def monthIdx (m : Month) : Int :=
  m.year * 12 + (m.month : Int)

/-- Inverse of `monthIdx` on valid months (month component in 1..12);
`/` and `%` on `Int` are Euclidean division and remainder. -/
def monthOfIdx (i : Int) : Month :=
  ⟨(i - 1) / 12, ((i - 1) % 12).toNat + 1⟩

/-- `date` truncated to the start of its month (`resample("MS")` bin key). -/
def truncMS (d : PyDate) : Month :=
  ⟨d.year, d.month⟩

/-! ### Python string primitives (kernel-computable models) -/

/-- Python `str.lower()` (ASCII case folding). -/
def pyLower (s : String) : String :=
  String.mk (s.data.map Char.toLower)

/-- Python `str.strip()`: whitespace removed from both ends. -/
def pyTrim (s : String) : String :=
  String.mk (((s.data.dropWhile Char.isWhitespace).reverse.dropWhile Char.isWhitespace).reverse)

/-- Python `s.startswith(pre)`. -/
def pyStartsWith (s pre : String) : Bool :=
  pre.data.isPrefixOf s.data

/-- Does `l` contain `pat` as a contiguous sublist? -/
def listContainsSub (pat : List Char) : List Char → Bool
  | [] => pat = []
  | c :: rest => pat.isPrefixOf (c :: rest) || listContainsSub pat rest

/-- Python `pat in s` for strings. -/
def strContains (s pat : String) : Bool :=
  listContainsSub pat.data s.data

/-- Split on a two-character separator, Python `str.split(sep)` semantics
(empty fields kept). -/
def splitOn2 (a b : Char) : List Char → List (List Char)
  | [] => [[]]
  | [c] => [[c]]
  | c :: d :: rest =>
    if c = a ∧ d = b then [] :: splitOn2 a b rest
    else
      match splitOn2 a b (d :: rest) with
      | [] => [[c]]
      | x :: xs => (c :: x) :: xs

/-- Split on a one-character separator, Python `str.split(sep)` semantics
(empty fields kept). -/
def splitOn1 (a : Char) : List Char → List (List Char)
  | [] => [[]]
  | c :: rest =>
    if c = a then [] :: splitOn1 a rest
    else
      match splitOn1 a rest with
      | [] => [[c]]
      | x :: xs => (c :: x) :: xs

/-- Python `s.split("-q")` (the separator used by the quarter branch). -/
def pySplitDashQ (s : String) : List String :=
  (splitOn2 '-' 'q' s.data).map String.mk

/-- Python `str.split()` with no argument: split on whitespace runs,
discarding empty fields. -/
def pySplitWs (s : String) : List String :=
  ((splitOn1 ' ' (s.data.map (fun c => if c.isWhitespace then ' ' else c))).filter
    (fun t => t ≠ [])).map String.mk

/-- All-decimal-digit character list to its numeric value (`none` on empty
or non-digit input). -/
def digitsVal (l : List Char) : Option Nat :=
  if l ≠ [] ∧ l.all Char.isDigit then
    some (l.foldl (fun acc c => acc * 10 + (c.toNat - 48)) 0)
  else none

/-- Python `int(str)`: surrounding whitespace stripped, optional single
sign, then decimal digits; anything else raises (here: `none`).
(Underscore separators and non-ASCII digits are not modelled.) -/
def pyInt (s : String) : Option Int :=
  match (pyTrim s).data with
  | '-' :: rest => (digitsVal rest).map (fun n => -(n : Int))
  | '+' :: rest => (digitsVal rest).map (fun n => (n : Int))
  | l => (digitsVal l).map (fun n => (n : Int))

/-- Decimal digits of a positive natural (fuel-based so it reduces). -/
def natDigitsAux : Nat → Nat → List Char
  | 0, _ => []
  | fuel + 1, n =>
    if n < 10 then [Char.ofNat (48 + n)]
    else natDigitsAux fuel (n / 10) ++ [Char.ofNat (48 + n % 10)]

/-- Python `str(n)` for a natural number. -/
def natStr (n : Nat) : String :=
  String.mk (natDigitsAux (n + 1) n)

/-- Python `str(i)` for an integer. -/
def intStr (i : Int) : String :=
  if i < 0 then "-" ++ natStr (-i).toNat else natStr i.toNat

/-- Zero-padded two-digit rendering (`strftime "%m"`). -/
def pad2 (m : Nat) : String :=
  if m < 10 then "0" ++ natStr m else natStr m

/-- Zero-padded four-digit year rendering (`strftime "%Y"`). -/
def pad4 (y : Int) : String :=
  if 0 ≤ y then
    let s := natStr y.toNat
    if s.length < 4 then String.mk (List.replicate (4 - s.length) '0') ++ s else s
  else intStr y

/-! ### pandas models -/

/-- `DataFrame.tail(n)` for the nonnegative counts used by the source:
the last `n` rows (all rows when `n ≥ len`). -/
def pdTail (ts : List MPoint) (n : Nat) : List MPoint :=
  ts.drop (ts.length - n)

/-- Model of `pandas.to_datetime(s, errors="raise")` restricted to the
formats this development exercises: `"YYYY-MM-DD"`, `"YYYY-MM"`, a bare
4-digit `"YYYY"` (January), and quarter strings `"YYYY-Qn"` (first month
of the quarter, `n` in 1..4, case already lowered by the caller).  Every
other string is treated as unparseable (`none`). -/
def pdToDatetime (s : String) : Option Month :=
  match (splitOn1 '-' s.data).map String.mk with
  | [y] =>
    match digitsVal y.data with
    | some yv => if y.length = 4 then some ⟨(yv : Int), 1⟩ else none
    | none => none
  | [y, r] =>
    match digitsVal y.data with
    | some yv =>
      if y.length = 4 then
        match r.data with
        | 'q' :: qd =>
          match digitsVal qd with
          | some n => if 1 ≤ n ∧ n ≤ 4 then some ⟨(yv : Int), 3 * (n - 1) + 1⟩ else none
          | none => none
        | _ =>
          match digitsVal r.data with
          | some m => if 1 ≤ m ∧ m ≤ 12 then some ⟨(yv : Int), m⟩ else none
          | none => none
      else none
    | none => none
  | [y, m, d] =>
    match digitsVal y.data, digitsVal m.data, digitsVal d.data with
    | some yv, some mv, some dv =>
      if y.length = 4 ∧ 1 ≤ mv ∧ mv ≤ 12 ∧ 1 ≤ dv ∧ dv ≤ 31 then
        some ⟨(yv : Int), mv⟩
      else none
    | _, _, _ => none
  | _ => none

/-- `ts["ds"].max()` — the latest month of a (nonempty) series; junk
default on the empty list, which the caller guards against. -/
def latestDs (ts : List MPoint) : Month :=
  match ts with
  | [] => ⟨0, 1⟩
  | p :: rest => rest.foldl (fun acc q => if monthIdx acc < monthIdx q.ds then q.ds else acc) p.ds

/-! ### The period resolver -/

/-- `parse_last_period`: number of months for "last N" phrases, `none`
when the word "last" is absent.  Mirrors the Python truthiness of
`find_number(tokens) or 1` (both `None` and `0` are replaced by `1`
before the unit multiplier is applied) and the final `max(months, 1)`. -/
def parse_last_period (period : String) : Option Int :=
  let tokens := pySplitWs (pyLower period)
  if "last" ∈ tokens then
    let n := tokens.findSome? pyInt
    let months : Int :=
      match n with
      | some v => if v = 0 then 1 else v
      | none => 1
    let months :=
      if "quarter" ∈ tokens ∨ "quarters" ∈ tokens then months * 3
      else if "year" ∈ tokens ∨ "years" ∈ tokens then months * 12
      else months
    some (max months 1)
  else none

/-- The shared default window: `ts.tail(3)` with label
`f"last {min(len(ts), 3)} period(s)"`. -/
def defaultWindow (ts : List MPoint) : List MPoint × String :=
  (pdTail ts 3, "last " ++ natStr (min ts.length 3) ++ " period(s)")

/-- `filter_period`: the period-resolution rule cascade.  A raised Python
exception (`ValueError` from `int()` or from tuple unpacking in the
`YYYY-Qn` branch) is modelled as `Except.error`; every ordinary return is
`Except.ok (subset, label)`.  Each rule that matches but yields an empty
subset falls through exactly as the Python early returns do. -/
def filter_period (ts : List MPoint) (period : Option String) : Except String (List MPoint × String) :=
  if ts = [] then .ok (ts, "no history available")
  else
    -- Python `if not period:` is true for both a missing slot and "".
    if period = none ∨ period = some "" then .ok (defaultWindow ts)
    else
      let normalized := pyLower (pyTrim (period.getD ""))
      let latest := latestDs ts
      -- rule: YTD
      let step :=
        if normalized = "ytd" ∨ normalized = "year to date" then
          let subset := ts.filter (fun p => p.ds.year == latest.year)
          if subset = [] then none
          else some (Except.ok (subset, intStr latest.year ++ " YTD"))
        else none
      match step with
      | some r => r
      | none =>
      -- rule: MTD
      let step :=
        if normalized = "mtd" ∨ normalized = "month to date" then
          let subset := ts.filter (fun p => p.ds.year == latest.year && p.ds.month == latest.month)
          if subset = [] then none
          else some (Except.ok (subset, pad4 latest.year ++ "-" ++ pad2 latest.month ++ " MTD"))
        else none
      match step with
      | some r => r
      | none =>
      -- rule: QTD
      let step :=
        if normalized = "qtd" ∨ normalized = "quarter to date" then
          let quarter := (latest.month - 1) / 3 + 1
          let start_month := (quarter - 1) * 3 + 1
          let subset := ts.filter (fun p =>
            p.ds.year == latest.year && (start_month ≤ p.ds.month && p.ds.month ≤ latest.month))
          if subset = [] then none
          else some (Except.ok (subset, intStr latest.year ++ "-Q" ++ natStr quarter ++ " QTD"))
        else none
      match step with
      | some r => r
      | none =>
      -- rule: last N months/quarters/years (`if last_months:`)
      let step :=
        match parse_last_period normalized with
        | some last_months =>
          if last_months ≠ 0 then
            let subset := pdTail ts last_months.toNat
            some (Except.ok (subset, "last " ++ natStr subset.length ++ " period(s)"))
          else none
        | none => none
      match step with
      | some r => r
      | none =>
      -- rule: `YYYY-Qn` (guard: startswith("20") and "-q" in normalized)
      let step :=
        if pyStartsWith normalized "20" ∧ strContains normalized "-q" then
          some (
            match pySplitDashQ normalized with
            | [ys, qs] =>
              match pyInt ys with
              | some year =>
                match pyInt (pyTrim qs) with
                | some quarter =>
                  let start_month := (quarter - 1) * 3 + 1
                  let end_month := start_month + 2
                  let subset := ts.filter (fun p =>
                    p.ds.year == year && (start_month ≤ (p.ds.month : Int) && (p.ds.month : Int) ≤ end_month))
                  if subset = [] then Except.ok (defaultWindow ts)
                  else Except.ok (subset, intStr year ++ "-Q" ++ intStr quarter)
                | none => Except.error "ValueError: invalid literal for int() (quarter)"
              | none => Except.error "ValueError: invalid literal for int() (year)"
            | _ => Except.error "ValueError: values to unpack")
        else none
      match step with
      | some r => r
      | none =>
      -- final rule: try pd.to_datetime, fall back to the default window
      match pdToDatetime normalized with
      | none => .ok (defaultWindow ts)
      | some parsed =>
        let subset := ts.filter (fun p => p.ds.year == parsed.year && p.ds.month == parsed.month)
        if subset = [] then .ok (defaultWindow ts)
        else .ok (subset, pad4 parsed.year ++ "-" ++ pad2 parsed.month)

/-! ### The series slicer -/

/-- Whether an observation row survives the `slice_series` filter for the
requested KPI and segment (lowercasing models `load_data`'s column
normalisation composed with the `.lower()` calls at the comparison). -/
def obsMatches (o : Obs) (kpi segment : String) : Bool :=
  pyLower o.kpi == pyLower kpi && pyLower o.segment == pyLower segment

/-- Mean of the matching observations falling in month `m`; `none` models
the NaN an empty `resample("MS")` bin produces. -/
def monthMean (ser : List Obs) (m : Month) : Option ℚ :=
  let vals := (ser.filter (fun o => truncMS o.date == m)).map Obs.value
  if vals = [] then none else some (vals.sum / (vals.length : ℚ))

/-- The consecutive integers from `lo` to `hi` inclusive. -/
def intRangeI (lo hi : Int) : List Int :=
  (List.range (hi - lo + 1).toNat).map (fun (k : Nat) => lo + (k : Int))

/-- `slice_series`: filter on kpi/segment, then `resample("MS").mean()`.
The pandas resampler emits one row for every month between the earliest
and latest matching month (inclusive); a month with no data gets a NaN
(`none`) value.  No match returns the empty frame. -/
def slice_series (df : List Obs) (kpi segment : String) : List MPoint :=
  match df.filter (fun o => obsMatches o kpi segment) with
  | [] => []
  | o₀ :: rest =>
    let ser := o₀ :: rest
    let idxs := ser.map (fun o => monthIdx (truncMS o.date))
    let lo := idxs.foldl min (monthIdx (truncMS o₀.date))
    let hi := idxs.foldl max (monthIdx (truncMS o₀.date))
    (intRangeI lo hi).map (fun i => ⟨monthOfIdx i, monthMean ser (monthOfIdx i)⟩)

/-! ### Horizon coercion and forecast orchestration -/

/-- A horizon slot value as `float(value)` sees it: a finite numeric
(int, float, or numeric string), or anything on which `float`/`math.ceil`
raises (non-numeric strings, `None`, infinities, NaN). -/
inductive SlotValue where
  | num (q : ℚ)
  | nonNumeric
deriving DecidableEq, Repr

/-- `ensure_positive_int`: ceiling-round a numeric-ish value and floor it
at 1; return `default` when coercion raises. -/
def ensure_positive_int (value : SlotValue) (default : Int) : Int :=
  match value with
  | .num q => max ⌈q⌉ 1
  | .nonNumeric => default

/-- Outcome of `ActionForecastKPI.run` past slot validation.  The
`arimaForecast` payload is the value the action writes back to the
`model` slot (`"arima"` for an explicit choice, `"prophet_unavailable"`
for the automatic fallback). -/
inductive ForecastOutcome where
  | insufficientHistory
  | prophetForecast
  | arimaForecast (slotValue : String)
  | noBackend
deriving DecidableEq, Repr

/-- The backend-selection logic of `ActionForecastKPI.run` (lines after
slot validation): history gate first, then preferred-Prophet, then ARIMA
fallback, then the no-backend message.  `horizon` is coerced before this
logic runs and does not influence the branch taken. -/
def forecast_dispatch (ts : List MPoint) (horizon : Int) (model_slot : String)
    (use_prophet use_arima : Bool) : ForecastOutcome :=
  let _ := horizon
  if ts.length < 6 then .insufficientHistory
  else if model_slot = "prophet" ∧ use_prophet then .prophetForecast
  else if use_arima then .arimaForecast (if model_slot ≠ "prophet" then "arima" else "prophet_unavailable")
  else .noBackend

/-- Equality of resolver results is decidable (used by concrete
witnesses and counterexamples). -/
instance : DecidableEq (Except String (List MPoint × String)) := fun a b =>
  match a, b with
  | .error e₁, .error e₂ =>
    if h : e₁ = e₂ then isTrue (by rw [h]) else isFalse (by intro hc; cases hc; exact h rfl)
  | .ok v₁, .ok v₂ =>
    if h : v₁ = v₂ then isTrue (by rw [h]) else isFalse (by intro hc; cases hc; exact h rfl)
  | .error _, .ok _ => isFalse (by intro hc; cases hc)
  | .ok _, .error _ => isFalse (by intro hc; cases hc)
/-! ### Concrete example data used by witnesses and counterexamples -/

/-- A monthly point with an observed (non-NaN) value. -/
def exPoint (y : Int) (m : Nat) (v : ℚ) : MPoint :=
  ⟨⟨y, m⟩, some v⟩

/-- An eight-point monthly series covering 2024-01 .. 2024-08. -/
def exSeries8 : List MPoint :=
  [exPoint 2024 1 1, exPoint 2024 2 2, exPoint 2024 3 3, exPoint 2024 4 4,
   exPoint 2024 5 5, exPoint 2024 6 6, exPoint 2024 7 7, exPoint 2024 8 8]

/-- A five-point monthly series (below the forecasting threshold). -/
def exSeries5 : List MPoint :=
  [exPoint 2024 1 1, exPoint 2024 2 2, exPoint 2024 3 3, exPoint 2024 4 4,
   exPoint 2024 5 5]

/-- A six-point monthly series (at the forecasting threshold). -/
def exSeries6 : List MPoint :=
  [exPoint 2024 1 1, exPoint 2024 2 2, exPoint 2024 3 3, exPoint 2024 4 4,
   exPoint 2024 5 5, exPoint 2024 6 6]

/-- A three-point series covering exactly 1999-Q1. -/
def exSeries99 : List MPoint :=
  [exPoint 1999 1 5, exPoint 1999 2 6, exPoint 1999 3 7]

/-- A two-row observation table with a one-month gap (2024-01 and 2024-03)
and mixed-case identifiers. -/
def exObs : List Obs :=
  [⟨⟨2024, 1, 5⟩, "Revenue", "EMEA", 10⟩, ⟨⟨2024, 3, 7⟩, "revenue", "emea", 20⟩]

/-! ### C4 — short series short-circuit to InsufficientHistory -/

/-- C4: for every series with fewer than 6 points, every horizon and every
preferred backend, the forecast path returns InsufficientHistory without
invoking any backend, whatever the availability flags say. -/
theorem forecast_insufficient_history (ts : List MPoint) (horizon : Int)
    (model_slot : String) (use_prophet use_arima : Bool) (h : ts.length < 6) :
    forecast_dispatch ts horizon model_slot use_prophet use_arima = .insufficientHistory := by
  simp [forecast_dispatch, h]

/-- C4 witness: a five-point series with both backends available. -/
theorem forecast_insufficient_history_witness :
    exSeries5.length < 6 ∧
    forecast_dispatch exSeries5 3 "prophet" true true = .insufficientHistory :=
  ⟨by decide, forecast_insufficient_history exSeries5 3 "prophet" true true (by decide)⟩

/-! ### C5 — ARIMA-only availability: fallback marker vs explicit choice -/

/-- C5: with only ARIMA available and enough history, a "prophet"
preference yields the fallback-substitution marker outcome (never the
explicit "arima" outcome) while an "arima" preference yields the explicit
"arima" outcome. -/
theorem forecast_arima_fallback_marker (ts : List MPoint) (horizon : Int)
    (h : 6 ≤ ts.length) :
    forecast_dispatch ts horizon "prophet" false true = .arimaForecast "prophet_unavailable" ∧
    forecast_dispatch ts horizon "prophet" false true ≠ .arimaForecast "arima" ∧
    forecast_dispatch ts horizon "arima" false true = .arimaForecast "arima" := by
  have h' : ¬ ts.length < 6 := Nat.not_lt.mpr h
  refine ⟨?_, ?_, ?_⟩ <;> simp [forecast_dispatch, h']

/-- C5 witness: a six-point series under ARIMA-only availability. -/
theorem forecast_arima_fallback_marker_witness :
    forecast_dispatch exSeries6 3 "prophet" false true = .arimaForecast "prophet_unavailable" ∧
    forecast_dispatch exSeries6 3 "prophet" false true ≠ .arimaForecast "arima" ∧
    forecast_dispatch exSeries6 3 "arima" false true = .arimaForecast "arima" :=
  forecast_arima_fallback_marker exSeries6 3 (by decide)

/-! ### C9 — horizon coercion -/

/-- C9: horizon coercion is total and always at least 1 when the default
is 3: a numeric-ish value is ceiling-rounded then floored at 1, and a
non-numeric or missing value yields the default 3. -/
theorem ensure_positive_int_spec (v : SlotValue) :
    1 ≤ ensure_positive_int v 3 ∧
    (∀ q : ℚ, v = .num q → ensure_positive_int v 3 = max ⌈q⌉ 1) ∧
    (v = .nonNumeric → ensure_positive_int v 3 = 3) := by
  cases v with
  | num q =>
    refine ⟨le_max_right _ _, ?_, ?_⟩
    · intro q' hq'
      cases hq'
      rfl
    · intro h
      cases h
  | nonNumeric =>
    refine ⟨by norm_num [ensure_positive_int], ?_, fun _ => rfl⟩
    intro q' hq'
    cases hq'

/-- C9 witness: 2.5 is ceiling-rounded to 3 (= max ⌈5/2⌉ 1). -/
theorem ensure_positive_int_spec_witness :
    ensure_positive_int (.num (5 / 2)) 3 = max ⌈(5 / 2 : ℚ)⌉ 1 :=
  (ensure_positive_int_spec (.num (5 / 2))).2.1 (5 / 2) rfl

/-! ### C1 — the resolver is not total: the `YYYY-Qn` branch can raise -/

/-- C1 (code bug evidence): `filter_period` raises `ValueError` on the
expression "2024-qx": the guard `startswith("20") and "-q" in normalized`
admits it, and `int("x")` then raises with no surrounding handler, so no
fallback selection is returned. -/
theorem filter_period_raises_on_malformed_quarter :
    filter_period exSeries8 (some "2024-qx") =
      .error "ValueError: invalid literal for int() (quarter)" := by
  rfl

/-! ### General lemmas about the embedding's primitives -/

/-- ASCII lowercasing of a character is idempotent. -/
theorem char_toLower_idem (c : Char) : c.toLower.toLower = c.toLower := by
  unfold Char.toLower
  by_cases h : c.toNat ≥ 65 ∧ c.toNat ≤ 90
  · rw [if_pos h]
    have hv : (c.toNat + 32).isValidChar := Or.inl (by omega)
    have ht : (Char.ofNat (c.toNat + 32)).toNat = c.toNat + 32 := by
      unfold Char.ofNat
      rw [dif_pos hv]
      rfl
    rw [ht, if_neg (by omega)]
  · rw [if_neg h, if_neg h]

/-- Python `str.lower()` is idempotent. -/
theorem pyLower_idem (s : String) : pyLower (pyLower s) = pyLower s := by
  unfold pyLower
  refine congrArg String.mk ?_
  show (s.data.map Char.toLower).map Char.toLower = s.data.map Char.toLower
  rw [List.map_map]
  exact List.map_congr_left (fun c _ => char_toLower_idem c)

/-- The running maximum over the tail of a series is either the seed or
the `ds` of some element. -/
theorem foldl_latest_mem (rest : List MPoint) (a : Month) :
    rest.foldl (fun acc q => if monthIdx acc < monthIdx q.ds then q.ds else acc) a = a ∨
    ∃ q ∈ rest, rest.foldl (fun acc q => if monthIdx acc < monthIdx q.ds then q.ds else acc) a = q.ds := by
  induction rest generalizing a with
  | nil => exact Or.inl rfl
  | cons r rs ih =>
    simp only [List.foldl_cons]
    rcases ih (if monthIdx a < monthIdx r.ds then r.ds else a) with h | ⟨q, hq, hfold⟩
    · rw [h]
      by_cases hc : monthIdx a < monthIdx r.ds
      · exact Or.inr ⟨r, List.mem_cons_self r rs, by rw [if_pos hc]⟩
      · exact Or.inl (by rw [if_neg hc])
    · exact Or.inr ⟨q, List.mem_cons_of_mem r hq, hfold⟩

/-- `ts["ds"].max()` is attained by some row of a nonempty series. -/
theorem latestDs_mem (ts : List MPoint) (h : ts ≠ []) : ∃ p ∈ ts, p.ds = latestDs ts := by
  match ts with
  | p :: rest =>
    have hdef : latestDs (p :: rest) =
        rest.foldl (fun acc q => if monthIdx acc < monthIdx q.ds then q.ds else acc) p.ds := rfl
    rcases foldl_latest_mem rest p.ds with hfold | ⟨q, hq, hfold⟩
    · exact ⟨p, List.mem_cons_self p rest, by rw [hdef, hfold]⟩
    · exact ⟨q, List.mem_cons_of_mem p hq, by rw [hdef, hfold]⟩

/-- `monthIdx` is a left inverse of `monthOfIdx`. -/
theorem monthIdx_monthOfIdx (i : Int) : monthIdx (monthOfIdx i) = i := by
  unfold monthIdx monthOfIdx
  simp only
  omega

/-- `monthOfIdx` inverts `monthIdx` on calendar-valid months. -/
theorem monthOfIdx_monthIdx (m : Month) (h1 : 1 ≤ m.month) (h2 : m.month ≤ 12) :
    monthOfIdx (monthIdx m) = m := by
  obtain ⟨y, mo⟩ := m
  simp only at h1 h2
  unfold monthIdx monthOfIdx
  rw [Month.mk.injEq]
  constructor <;> simp only <;> omega

/-- Membership in an inclusive integer range. -/
theorem mem_intRangeI {lo hi i : Int} : i ∈ intRangeI lo hi ↔ lo ≤ i ∧ i ≤ hi := by
  unfold intRangeI
  simp only [List.mem_map, List.mem_range]
  constructor
  · rintro ⟨k, hk, rfl⟩
    omega
  · rintro ⟨hl, hr⟩
    exact ⟨(i - lo).toNat, by omega, by omega⟩

/-- An inclusive integer range is strictly increasing. -/
theorem pairwise_intRangeI (lo hi : Int) : (intRangeI lo hi).Pairwise (· < ·) := by
  unfold intRangeI
  rw [List.pairwise_map]
  refine (List.pairwise_lt_range ((hi - lo + 1).toNat)).imp ?_
  intro a b hab
  omega

/-- A left fold by `min` never exceeds its seed. -/
theorem foldl_min_le_init (l : List Int) (a : Int) : l.foldl min a ≤ a := by
  induction l generalizing a with
  | nil => exact le_refl a
  | cons b t ih => exact le_trans (ih (min a b)) (min_le_left a b)

/-- A left fold by `min` never exceeds any list element. -/
theorem foldl_min_le_mem (l : List Int) (a x : Int) (hx : x ∈ l) : l.foldl min a ≤ x := by
  induction l generalizing a with
  | nil => cases hx
  | cons b t ih =>
    rw [List.foldl_cons]
    rcases List.mem_cons.mp hx with rfl | hx'
    · exact le_trans (foldl_min_le_init t (min a x)) (min_le_right a x)
    · exact ih (min a b) hx'

/-- A left fold by `min` is its seed or some list element. -/
theorem foldl_min_attained (l : List Int) (a : Int) :
    l.foldl min a = a ∨ l.foldl min a ∈ l := by
  induction l generalizing a with
  | nil => exact Or.inl rfl
  | cons b t ih =>
    rw [List.foldl_cons]
    rcases ih (min a b) with h | h
    · rcases min_choice a b with hm | hm
      · exact Or.inl (by rw [h, hm])
      · exact Or.inr (by rw [h, hm]; exact List.mem_cons_self b t)
    · exact Or.inr (List.mem_cons_of_mem b h)

/-- A left fold by `max` is at least its seed. -/
theorem le_foldl_max_init (l : List Int) (a : Int) : a ≤ l.foldl max a := by
  induction l generalizing a with
  | nil => exact le_refl a
  | cons b t ih => exact le_trans (le_max_left a b) (ih (max a b))

/-- A left fold by `max` is at least any list element. -/
theorem le_foldl_max_mem (l : List Int) (a x : Int) (hx : x ∈ l) : x ≤ l.foldl max a := by
  induction l generalizing a with
  | nil => cases hx
  | cons b t ih =>
    rw [List.foldl_cons]
    rcases List.mem_cons.mp hx with rfl | hx'
    · exact le_trans (le_max_right a x) (le_foldl_max_init t (max a x))
    · exact ih (max a b) hx'

/-- A left fold by `max` is its seed or some list element. -/
theorem foldl_max_attained (l : List Int) (a : Int) :
    l.foldl max a = a ∨ l.foldl max a ∈ l := by
  induction l generalizing a with
  | nil => exact Or.inl rfl
  | cons b t ih =>
    rw [List.foldl_cons]
    rcases ih (max a b) with h | h
    · rcases max_choice a b with hm | hm
      · exact Or.inl (by rw [h, hm])
      · exact Or.inr (by rw [h, hm]; exact List.mem_cons_self b t)
    · exact Or.inr (List.mem_cons_of_mem b h)

/-! ### C6 — default window when no expression is supplied -/

/-- C6: for every non-empty series, resolving with no expression returns
exactly the min(3, len) trailing points, labelled
"last K period(s)" with K = min(3, len). -/
theorem resolve_default_window (ts : List MPoint) (h : ts ≠ []) :
    filter_period ts none = .ok (pdTail ts 3, "last " ++ natStr (min ts.length 3) ++ " period(s)") ∧
    (pdTail ts 3).length = min ts.length 3 := by
  constructor
  · unfold filter_period
    rw [if_neg h, if_pos (Or.inl rfl)]
    rfl
  · rw [pdTail, List.length_drop]
    omega

/-- C6 witness: the default window of the eight-point example series. -/
theorem resolve_default_window_witness :
    filter_period exSeries8 none =
      .ok (pdTail exSeries8 3, "last " ++ natStr (min exSeries8.length 3) ++ " period(s)") ∧
    (pdTail exSeries8 3).length = min exSeries8.length 3 :=
  resolve_default_window exSeries8 (by decide)

/-! ### C7 — unrecognized expressions resolve like the default -/

/-- C7 (amended): for every series and every period string that is not a
YTD/MTD/QTD keyword, whose lowercased words do not include "last", that
does not both start with "20" and contain "-q", and that is not parseable
as a calendar date, resolution gives exactly the result of resolving with
no expression. -/
theorem resolve_unrecognized_default (ts : List MPoint) (e : String)
    (h1 : pyLower (pyTrim e) ≠ "ytd") (h2 : pyLower (pyTrim e) ≠ "year to date")
    (h3 : pyLower (pyTrim e) ≠ "mtd") (h4 : pyLower (pyTrim e) ≠ "month to date")
    (h5 : pyLower (pyTrim e) ≠ "qtd") (h6 : pyLower (pyTrim e) ≠ "quarter to date")
    (h7 : parse_last_period (pyLower (pyTrim e)) = none)
    (h8 : ¬(pyStartsWith (pyLower (pyTrim e)) "20" ∧ strContains (pyLower (pyTrim e)) "-q"))
    (h9 : pdToDatetime (pyLower (pyTrim e)) = none) :
    filter_period ts (some e) = filter_period ts none := by
  by_cases hts : ts = []
  · simp [filter_period, hts]
  · by_cases he : e = ""
    · subst he
      simp [filter_period, hts]
    · simp [filter_period, hts, he, h1, h2, h3, h4, h5, h6, h7, h8, h9]

/-- C7 witness: "gibberish" resolves identically to the default. -/
theorem resolve_unrecognized_default_witness :
    filter_period exSeries8 (some "gibberish") = filter_period exSeries8 none :=
  resolve_unrecognized_default exSeries8 "gibberish" (by decide) (by decide) (by decide)
    (by decide) (by decide) (by decide) (by decide) (by decide) (by decide)

/-- C7 counterexample: "2024-quarter" matches none of the spec's
recognized patterns and is not a date, yet it does not resolve like the
default window — the quarter branch's unguarded `int("uarter")` raises. -/
theorem resolve_unrecognized_default_cx :
    filter_period exSeries8 (some "2024-quarter") ≠ filter_period exSeries8 none := by
  decide

/-! ### C8 — "last N unit(s)" phrases -/

/-- C8 (amended): for every non-empty series and expression whose
lowercased words include "last", with first parsed number `n?` and unit
multiplier `m` (3 for quarters, 12 for years, 1 otherwise), resolution
returns the trailing `K = min(len, max(1, N·m))` points labelled with the
actual count, where `N` is the parsed number except that an absent or
zero count is replaced by 1 before the unit multiplication. -/
theorem resolve_last_n (ts : List MPoint) (e : String) (n? : Option Int) (N m : Int) (K : Nat)
    (hts : ts ≠ [])
    (hlast : "last" ∈ pySplitWs (pyLower (pyTrim e)))
    (hn : (pySplitWs (pyLower (pyTrim e))).findSome? pyInt = n?)
    (hN : N = n?.elim 1 (fun v => if v = 0 then 1 else v))
    (hm : m = (if "quarter" ∈ pySplitWs (pyLower (pyTrim e)) ∨ "quarters" ∈ pySplitWs (pyLower (pyTrim e)) then 3
          else if "year" ∈ pySplitWs (pyLower (pyTrim e)) ∨ "years" ∈ pySplitWs (pyLower (pyTrim e)) then 12 else 1))
    (hK : K = (max (N * m) 1).toNat) :
    filter_period ts (some e) = .ok (pdTail ts K, "last " ++ natStr ((pdTail ts K).length) ++ " period(s)") ∧
    (pdTail ts K).length = min ts.length K := by
  have he : e ≠ "" := by
    rintro rfl
    revert hlast
    decide
  have h1 : pyLower (pyTrim e) ≠ "ytd" := by
    intro hx; rw [hx] at hlast; revert hlast; decide
  have h2 : pyLower (pyTrim e) ≠ "year to date" := by
    intro hx; rw [hx] at hlast; revert hlast; decide
  have h3 : pyLower (pyTrim e) ≠ "mtd" := by
    intro hx; rw [hx] at hlast; revert hlast; decide
  have h4 : pyLower (pyTrim e) ≠ "month to date" := by
    intro hx; rw [hx] at hlast; revert hlast; decide
  have h5 : pyLower (pyTrim e) ≠ "qtd" := by
    intro hx; rw [hx] at hlast; revert hlast; decide
  have h6 : pyLower (pyTrim e) ≠ "quarter to date" := by
    intro hx; rw [hx] at hlast; revert hlast; decide
  have hparse : parse_last_period (pyLower (pyTrim e)) = some (max (N * m) 1) := by
    unfold parse_last_period
    rw [pyLower_idem, if_pos hlast, hn]
    subst hm
    cases n? with
    | none =>
      simp only [Option.elim] at hN
      subst hN
      dsimp only
      congr 1
      split_ifs <;> norm_num
    | some v =>
      simp only [Option.elim] at hN
      subst hN
      dsimp only
      congr 1
      split_ifs <;> ring_nf
  have hnz : (max (N * m) 1 : Int) ≠ 0 := by
    have := le_max_right (N * m) 1
    omega
  subst hK
  constructor
  · simp [filter_period, hts, he, h1, h2, h3, h4, h5, h6, hparse, hnz]
  · rw [pdTail, List.length_drop]
    omega

/-- C8 witness (the spec's own example): an eight-point series with
"last 2 quarters" resolves to the trailing 6 points, labelled
"last 6 period(s)". -/
theorem resolve_last_n_witness :
    filter_period exSeries8 (some "last 2 quarters") =
      .ok (pdTail exSeries8 6, "last " ++ natStr ((pdTail exSeries8 6).length) ++ " period(s)") ∧
    (pdTail exSeries8 6).length = min exSeries8.length 6 :=
  resolve_last_n exSeries8 "last 2 quarters" (some 2) 2 3 6 (by decide) (by decide)
    (by decide) (by decide) (by decide) (by decide)

/-- C8 counterexample: by the claim's formula, "last 0 quarters" against
an eight-point series would give min(8, max(1, 0·3)) = 1 trailing point
labelled "last 1 period(s)"; the code instead multiplies after replacing
0 by 1 and returns the trailing 3 points labelled "last 3 period(s)". -/
theorem resolve_last_n_cx :
    filter_period exSeries8 (some "last 0 quarters") ≠
      .ok (pdTail exSeries8 1, "last 1 period(s)") := by
  decide

/-! ### C3 — the `YYYY-Qn` rule -/

/-- C3 (amended): for every non-empty series and expression of quarter
shape whose normalized form starts with "20" and splits on "-q" into an
integer year and an integer quarter (and whose words do not include
"last"): the returned subset is exactly the points with that year and
month in [3n-2, 3n], labelled "YYYY-Qn"; an empty selection falls back to
the default window with the default label. -/
theorem resolve_quarter_rule (ts : List MPoint) (e : String) (ys qs : String) (year quarter : Int)
    (hts : ts ≠ [])
    (h20 : pyStartsWith (pyLower (pyTrim e)) "20")
    (hcont : strContains (pyLower (pyTrim e)) "-q")
    (hsplit : pySplitDashQ (pyLower (pyTrim e)) = [ys, qs])
    (hy : pyInt ys = some year)
    (hq : pyInt (pyTrim qs) = some quarter)
    (hnolast : parse_last_period (pyLower (pyTrim e)) = none) :
    ((quarter - 1) * 3 + 1 = 3 * quarter - 2 ∧ (quarter - 1) * 3 + 1 + 2 = 3 * quarter) ∧
    (ts.filter (fun p => p.ds.year == year &&
        ((quarter - 1) * 3 + 1 ≤ (p.ds.month : Int) && (p.ds.month : Int) ≤ (quarter - 1) * 3 + 1 + 2)) ≠ [] →
      filter_period ts (some e) =
        .ok (ts.filter (fun p => p.ds.year == year &&
          ((quarter - 1) * 3 + 1 ≤ (p.ds.month : Int) && (p.ds.month : Int) ≤ (quarter - 1) * 3 + 1 + 2)),
          intStr year ++ "-Q" ++ intStr quarter)) ∧
    (ts.filter (fun p => p.ds.year == year &&
        ((quarter - 1) * 3 + 1 ≤ (p.ds.month : Int) && (p.ds.month : Int) ≤ (quarter - 1) * 3 + 1 + 2)) = [] →
      filter_period ts (some e) =
        .ok (pdTail ts 3, "last " ++ natStr (min ts.length 3) ++ " period(s)")) := by
  have he : e ≠ "" := by
    rintro rfl
    revert h20
    decide
  have h1 : pyLower (pyTrim e) ≠ "ytd" := by
    intro hx; rw [hx] at h20; revert h20; decide
  have h2 : pyLower (pyTrim e) ≠ "year to date" := by
    intro hx; rw [hx] at h20; revert h20; decide
  have h3 : pyLower (pyTrim e) ≠ "mtd" := by
    intro hx; rw [hx] at h20; revert h20; decide
  have h4 : pyLower (pyTrim e) ≠ "month to date" := by
    intro hx; rw [hx] at h20; revert h20; decide
  have h5 : pyLower (pyTrim e) ≠ "qtd" := by
    intro hx; rw [hx] at h20; revert h20; decide
  have h6 : pyLower (pyTrim e) ≠ "quarter to date" := by
    intro hx; rw [hx] at h20; revert h20; decide
  refine ⟨⟨by ring, by ring⟩, ?_, ?_⟩
  · intro hne
    simp [filter_period, hts, he, h1, h2, h3, h4, h5, h6, hnolast, h20, hcont, hsplit, hy, hq, hne]
  · intro heq
    simp [filter_period, hts, he, h1, h2, h3, h4, h5, h6, hnolast, h20, hcont, hsplit, hy, hq, heq,
      defaultWindow]

/-- C3 witness: "2024-Q1" against the eight-point 2024 series selects
exactly the first-quarter points with label "2024-Q1". -/
theorem resolve_quarter_rule_witness :
    filter_period exSeries8 (some "2024-Q1") =
      .ok (exSeries8.filter (fun p => p.ds.year == (2024 : Int) &&
        (((1 : Int) - 1) * 3 + 1 ≤ (p.ds.month : Int) && (p.ds.month : Int) ≤ ((1 : Int) - 1) * 3 + 1 + 2)),
        intStr 2024 ++ "-Q" ++ intStr 1) :=
  (resolve_quarter_rule exSeries8 "2024-Q1" "2024" "1" 2024 1 (by decide) (by decide)
    (by decide) (by decide) (by decide) (by decide) (by decide)).2.1 (by decide)

/-- C3 counterexample: the claim as stated covers every `YYYY-Qn` shape,
but "1999-Q1" against a series covering exactly 1999-Q1 is not resolved
by the quarter rule (the guard requires the string to start with "20");
it falls through to date parsing and returns only January with label
"1999-01", not the whole quarter with label "1999-Q1". -/
theorem resolve_quarter_rule_cx :
    filter_period exSeries99 (some "1999-Q1") ≠ .ok (exSeries99, "1999-Q1") := by
  decide

/-! ### C10 — YTD/MTD/QTD always select a nonempty window -/

/-- C10: for every non-empty series (with calendar-valid months), each of
the six to-date expressions resolves inside its own rule to that rule's
filter — which is non-empty and contains the series' latest point — so
the empty-subset fall-through of these three rules is unreachable on
non-empty input. -/
theorem resolve_to_date_nonempty (ts : List MPoint) (hts : ts ≠ [])
    (hval : ∀ p ∈ ts, 1 ≤ p.ds.month) :
    (∀ e ∈ (["ytd", "year to date"] : List String),
      filter_period ts (some e) =
          .ok (ts.filter (fun p => p.ds.year == (latestDs ts).year),
            intStr (latestDs ts).year ++ " YTD") ∧
        ts.filter (fun p => p.ds.year == (latestDs ts).year) ≠ [] ∧
        ∃ p ∈ ts.filter (fun p => p.ds.year == (latestDs ts).year), p.ds = latestDs ts) ∧
    (∀ e ∈ (["mtd", "month to date"] : List String),
      filter_period ts (some e) =
          .ok (ts.filter (fun p => p.ds.year == (latestDs ts).year && p.ds.month == (latestDs ts).month),
            pad4 (latestDs ts).year ++ "-" ++ pad2 (latestDs ts).month ++ " MTD") ∧
        ts.filter (fun p => p.ds.year == (latestDs ts).year && p.ds.month == (latestDs ts).month) ≠ [] ∧
        ∃ p ∈ ts.filter (fun p => p.ds.year == (latestDs ts).year && p.ds.month == (latestDs ts).month),
          p.ds = latestDs ts) ∧
    (∀ e ∈ (["qtd", "quarter to date"] : List String),
      filter_period ts (some e) =
          .ok (ts.filter (fun p => p.ds.year == (latestDs ts).year &&
              ((((latestDs ts).month - 1) / 3) * 3 + 1 ≤ p.ds.month && p.ds.month ≤ (latestDs ts).month)),
            intStr (latestDs ts).year ++ "-Q" ++ natStr (((latestDs ts).month - 1) / 3 + 1) ++ " QTD") ∧
        ts.filter (fun p => p.ds.year == (latestDs ts).year &&
            ((((latestDs ts).month - 1) / 3) * 3 + 1 ≤ p.ds.month && p.ds.month ≤ (latestDs ts).month)) ≠ [] ∧
        ∃ p ∈ ts.filter (fun p => p.ds.year == (latestDs ts).year &&
            ((((latestDs ts).month - 1) / 3) * 3 + 1 ≤ p.ds.month && p.ds.month ≤ (latestDs ts).month)),
          p.ds = latestDs ts) := by
  obtain ⟨p₀, hp₀, hds⟩ := latestDs_mem ts hts
  have hm1 : 1 ≤ (latestDs ts).month := by rw [← hds]; exact hval p₀ hp₀
  have hyf : p₀ ∈ ts.filter (fun p => p.ds.year == (latestDs ts).year) :=
    List.mem_filter.mpr ⟨hp₀, by rw [hds]; simp⟩
  have hmf : p₀ ∈ ts.filter (fun p => p.ds.year == (latestDs ts).year && p.ds.month == (latestDs ts).month) :=
    List.mem_filter.mpr ⟨hp₀, by rw [hds]; simp⟩
  have hqf : p₀ ∈ ts.filter (fun p => p.ds.year == (latestDs ts).year &&
      ((((latestDs ts).month - 1) / 3) * 3 + 1 ≤ p.ds.month && p.ds.month ≤ (latestDs ts).month)) :=
    List.mem_filter.mpr ⟨hp₀, by rw [hds]; simp; omega⟩
  refine ⟨?_, ?_, ?_⟩ <;> intro e he <;> simp only [List.mem_cons, List.mem_singleton] at he
  · rcases he with rfl | rfl | he
    · have hnorm : pyLower (pyTrim "ytd") = "ytd" := by decide
      exact ⟨by simp [filter_period, hts, hnorm, List.ne_nil_of_mem hyf],
        List.ne_nil_of_mem hyf, p₀, hyf, hds⟩
    · have hnorm : pyLower (pyTrim "year to date") = "year to date" := by decide
      exact ⟨by simp [filter_period, hts, hnorm, List.ne_nil_of_mem hyf],
        List.ne_nil_of_mem hyf, p₀, hyf, hds⟩
    · exact absurd he (by simp)
  · rcases he with rfl | rfl | he
    · have hnorm : pyLower (pyTrim "mtd") = "mtd" := by decide
      exact ⟨by simp [filter_period, hts, hnorm, List.ne_nil_of_mem hmf],
        List.ne_nil_of_mem hmf, p₀, hmf, hds⟩
    · have hnorm : pyLower (pyTrim "month to date") = "month to date" := by decide
      exact ⟨by simp [filter_period, hts, hnorm, List.ne_nil_of_mem hmf],
        List.ne_nil_of_mem hmf, p₀, hmf, hds⟩
    · exact absurd he (by simp)
  · rcases he with rfl | rfl | he
    · have hnorm : pyLower (pyTrim "qtd") = "qtd" := by decide
      exact ⟨by simp [filter_period, hts, hnorm, List.ne_nil_of_mem hqf, -List.filter_eq_nil_iff],
        List.ne_nil_of_mem hqf, p₀, hqf, hds⟩
    · have hnorm : pyLower (pyTrim "quarter to date") = "quarter to date" := by decide
      exact ⟨by simp [filter_period, hts, hnorm, List.ne_nil_of_mem hqf, -List.filter_eq_nil_iff],
        List.ne_nil_of_mem hqf, p₀, hqf, hds⟩
    · exact absurd he (by simp)

/-- C10 witness: "qtd" on the eight-point series selects the Q3 window. -/
theorem resolve_to_date_nonempty_witness :
    filter_period exSeries8 (some "qtd") =
      .ok (exSeries8.filter (fun p => p.ds.year == (latestDs exSeries8).year &&
          ((((latestDs exSeries8).month - 1) / 3) * 3 + 1 ≤ p.ds.month && p.ds.month ≤ (latestDs exSeries8).month)),
        intStr (latestDs exSeries8).year ++ "-Q" ++ natStr (((latestDs exSeries8).month - 1) / 3 + 1) ++ " QTD") :=
  ((resolve_to_date_nonempty exSeries8 (by decide) (by decide)).2.2 "qtd"
    (List.mem_cons_self _ _)).1

/-! ### C2 — the series slicer -/

/-- C2 (amended): for every observation table with calendar-valid dates,
the sliced series is strictly increasing by month and carries, for each
of its points, the mean of the case-insensitively matching observations
of that month (`none`, i.e. NaN, when the month has no matching
observation); every matching observation's month appears; every emitted
month lies between the earliest and latest matching months, and every
integer month between some matching months is emitted — so the result has
exactly one point per calendar month from the first to the last matching
month, gap months included as NaN rows.  No match yields the empty series
(and the Lean model is total, mirroring that no exception is raised). -/
theorem slice_series_spec (df : List Obs) (kpi segment : String)
    (hval : ∀ o ∈ df, 1 ≤ o.date.month ∧ o.date.month ≤ 12) :
    (df.filter (fun o => obsMatches o kpi segment) = [] → slice_series df kpi segment = []) ∧
    (slice_series df kpi segment).Pairwise (fun p q => monthIdx p.ds < monthIdx q.ds) ∧
    (∀ p ∈ slice_series df kpi segment,
       p.y = monthMean (df.filter (fun o => obsMatches o kpi segment)) p.ds) ∧
    (∀ o ∈ df.filter (fun o => obsMatches o kpi segment),
       ∃ p ∈ slice_series df kpi segment, p.ds = truncMS o.date) ∧
    (∀ p ∈ slice_series df kpi segment,
       ∃ o₁ ∈ df.filter (fun o => obsMatches o kpi segment),
       ∃ o₂ ∈ df.filter (fun o => obsMatches o kpi segment),
         monthIdx (truncMS o₁.date) ≤ monthIdx p.ds ∧ monthIdx p.ds ≤ monthIdx (truncMS o₂.date)) ∧
    (∀ i : Int,
       (∃ o₁ ∈ df.filter (fun o => obsMatches o kpi segment), monthIdx (truncMS o₁.date) ≤ i) →
       (∃ o₂ ∈ df.filter (fun o => obsMatches o kpi segment), i ≤ monthIdx (truncMS o₂.date)) →
       ∃ p ∈ slice_series df kpi segment, monthIdx p.ds = i) := by
  rcases hser : df.filter (fun o => obsMatches o kpi segment) with _ | ⟨o₀, rest⟩
  · have hs : slice_series df kpi segment = [] := by
      unfold slice_series
      rw [hser]
    refine ⟨fun _ => hs, by rw [hs]; exact List.Pairwise.nil, ?_, ?_, ?_, ?_⟩
    · intro p hp
      rw [hs] at hp
      cases hp
    · intro o ho
      cases ho
    · intro p hp
      rw [hs] at hp
      cases hp
    · intro i h₁ h₂
      obtain ⟨o₁, ho₁, _⟩ := h₁
      cases ho₁
  · have hs : slice_series df kpi segment = (intRangeI
        (((o₀ :: rest).map (fun o => monthIdx (truncMS o.date))).foldl min (monthIdx (truncMS o₀.date)))
        (((o₀ :: rest).map (fun o => monthIdx (truncMS o.date))).foldl max (monthIdx (truncMS o₀.date)))).map
        (fun i => ⟨monthOfIdx i, monthMean (o₀ :: rest) (monthOfIdx i)⟩) := by
      unfold slice_series
      rw [hser]
    set L := ((o₀ :: rest).map (fun o => monthIdx (truncMS o.date))).foldl min (monthIdx (truncMS o₀.date)) with hL
    set U := ((o₀ :: rest).map (fun o => monthIdx (truncMS o.date))).foldl max (monthIdx (truncMS o₀.date)) with hU
    have hmem_ser : ∀ o ∈ (o₀ :: rest), o ∈ df := by
      intro o ho
      have hof : o ∈ df.filter (fun o => obsMatches o kpi segment) := by rw [hser]; exact ho
      exact List.mem_of_mem_filter hof
    have hvalid : ∀ o ∈ (o₀ :: rest), 1 ≤ o.date.month ∧ o.date.month ≤ 12 :=
      fun o ho => hval o (hmem_ser o ho)
    have hlo_le : ∀ o ∈ (o₀ :: rest), L ≤ monthIdx (truncMS o.date) := by
      intro o ho
      exact foldl_min_le_mem _ _ _ (List.mem_map_of_mem _ ho)
    have hhi_ge : ∀ o ∈ (o₀ :: rest), monthIdx (truncMS o.date) ≤ U := by
      intro o ho
      exact le_foldl_max_mem _ _ _ (List.mem_map_of_mem _ ho)
    have hlo_ex : ∃ o ∈ (o₀ :: rest), monthIdx (truncMS o.date) = L := by
      rcases foldl_min_attained ((o₀ :: rest).map (fun o => monthIdx (truncMS o.date)))
          (monthIdx (truncMS o₀.date)) with h | h
      · exact ⟨o₀, List.mem_cons_self o₀ rest, h.symm⟩
      · rw [List.mem_map] at h
        obtain ⟨o, ho, hoe⟩ := h
        exact ⟨o, ho, hoe⟩
    have hhi_ex : ∃ o ∈ (o₀ :: rest), monthIdx (truncMS o.date) = U := by
      rcases foldl_max_attained ((o₀ :: rest).map (fun o => monthIdx (truncMS o.date)))
          (monthIdx (truncMS o₀.date)) with h | h
      · exact ⟨o₀, List.mem_cons_self o₀ rest, h.symm⟩
      · rw [List.mem_map] at h
        obtain ⟨o, ho, hoe⟩ := h
        exact ⟨o, ho, hoe⟩
    refine ⟨?_, ?_, ?_, ?_, ?_, ?_⟩
    · intro hemp
      cases hemp
    · rw [hs, List.pairwise_map]
      refine (pairwise_intRangeI L U).imp ?_
      intro a b hab
      show monthIdx (monthOfIdx a) < monthIdx (monthOfIdx b)
      rw [monthIdx_monthOfIdx, monthIdx_monthOfIdx]
      exact hab
    · intro p hp
      rw [hs, List.mem_map] at hp
      obtain ⟨i, hiR, rfl⟩ := hp
      rfl
    · intro o ho
      refine ⟨⟨monthOfIdx (monthIdx (truncMS o.date)),
        monthMean (o₀ :: rest) (monthOfIdx (monthIdx (truncMS o.date)))⟩, ?_, ?_⟩
      · rw [hs]
        exact List.mem_map_of_mem _ (mem_intRangeI.mpr ⟨hlo_le o ho, hhi_ge o ho⟩)
      · show monthOfIdx (monthIdx (truncMS o.date)) = truncMS o.date
        exact monthOfIdx_monthIdx _ (hvalid o ho).1 (hvalid o ho).2
    · intro p hp
      rw [hs, List.mem_map] at hp
      obtain ⟨i, hiR, rfl⟩ := hp
      rw [mem_intRangeI] at hiR
      obtain ⟨oL, hoL, hoLe⟩ := hlo_ex
      obtain ⟨oU, hoU, hoUe⟩ := hhi_ex
      refine ⟨oL, hoL, oU, hoU, ?_, ?_⟩
      · show monthIdx (truncMS oL.date) ≤ monthIdx (monthOfIdx i)
        rw [hoLe, monthIdx_monthOfIdx]
        exact hiR.1
      · show monthIdx (monthOfIdx i) ≤ monthIdx (truncMS oU.date)
        rw [hoUe, monthIdx_monthOfIdx]
        exact hiR.2
    · intro i h₁ h₂
      obtain ⟨o₁, ho₁, hle₁⟩ := h₁
      obtain ⟨o₂, ho₂, hle₂⟩ := h₂
      refine ⟨⟨monthOfIdx i, monthMean (o₀ :: rest) (monthOfIdx i)⟩, ?_, monthIdx_monthOfIdx i⟩
      rw [hs]
      refine List.mem_map_of_mem _ (mem_intRangeI.mpr ⟨?_, ?_⟩)
      · exact le_trans (hlo_le o₁ ho₁) hle₁
      · exact le_trans hle₂ (hhi_ge o₂ ho₂)

/-- C2 witness: the example table slices to a strictly increasing series. -/
theorem slice_series_spec_witness :
    (slice_series exObs "revenue" "EMEA").Pairwise (fun p q => monthIdx p.ds < monthIdx q.ds) :=
  (slice_series_spec exObs "revenue" "EMEA" (by decide)).2.1

/-- C2 counterexample: with matching observations only in 2024-01 and
2024-03, the claim says the 2024-02 point is absent; the pandas resampler
emits it as a NaN row, so the sliced months are 01, 02, 03. -/
theorem slice_series_gap_month_cx :
    (slice_series exObs "revenue" "EMEA").map MPoint.ds ≠ [⟨2024, 1⟩, ⟨2024, 3⟩] ∧
    (slice_series exObs "revenue" "EMEA").map MPoint.ds = [⟨2024, 1⟩, ⟨2024, 2⟩, ⟨2024, 3⟩] ∧
    ((slice_series exObs "revenue" "EMEA").getD 1 ⟨⟨0, 0⟩, none⟩).y = none := by
  refine ⟨by decide, by decide, by decide⟩
